import Mathlib

/-!
A verification development for the beam-search decoding engine of
`src/bart/my_model.py` (module `my_model`).

Modelling conventions:

* Token ids are `Nat` (except in `shift_tokens_right`, where the `-100` label
  sentinel forces `Int` entries).
* Per-token log-probability scores are floats in the source.  They are modelled
  by `FScore`: a finite value carries an `Int`, and `posInf`, `negInf`, `nan`
  model the non-finite IEEE values (claim C6 is about non-finite scores, so they
  must be representable).  The ordering used by `torch.topk` is modelled with
  `nan` above every other value; torch leaves the relative position of `nan`
  unspecified, and none of the theorems below depend on this choice.
* 2-D tensors are lists of rows; `tensor.view(batch, num_beams * vocab)`
  becomes per-example concatenation (`List.flatten`) of the beam rows.
* The external scoring collaborator (`self(**model_inputs)` followed by
  `log_softmax`) is an opaque deterministic function from the token matrix to
  per-beam score rows, handed to the driver as `BeamCtx.model`; likewise the
  logits-processor pipeline call is `BeamCtx.processors`.  The reusable cache is
  a pure optimisation of this collaborator (the collaborator is a function of
  the full token history), so the loop model does not thread it; `_reorder_cache`
  is modelled separately, exactly as in the source.
* `BeamSearchScorer` / `BeamHypotheses`, the logits-processor classes, and the
  stopping-criteria classes are imported from `..utils`, which is not part of
  the sources given here; those parts are modelled from the specification text
  (sections 4.2 and 4.3) and are marked `Modelled from the spec:` below.
* Python exceptions become `Except GenError`; the `while True` loop becomes a
  fuel-indexed recursion returning `Option` (`none` = fuel exhausted, i.e. the
  loop had not yet terminated).
-/

/-- Extended score values modelling the float log-probabilities of the source.
Finite scores are `val q`; `posInf`, `negInf` and `nan` model the non-finite
IEEE floats.  `nan` is ordered above every other value (torch's placement of
`nan` in `topk` is implementation-defined; no theorem below depends on it). -/
inductive FScore where
  | val (q : Int)
  | posInf
  | negInf
  | nan
  deriving DecidableEq

/-- Sort key embedding `FScore` into `Nat × Int` ordered lexicographically:
`negInf < val q < posInf < nan`. -/
def FScore.key : FScore → Nat × Int
  | .negInf => (0, 0)
  | .val q => (1, q)
  | .posInf => (2, 0)
  | .nan => (3, 0)

/-- Strict order on scores used by the model of `torch.topk`. -/
def fsLt (a b : FScore) : Prop :=
  a.key.1 < b.key.1 ∨ (a.key.1 = b.key.1 ∧ a.key.2 < b.key.2)

instance (a b : FScore) : Decidable (fsLt a b) :=
  inferInstanceAs (Decidable (_ ∨ _))

/-- IEEE-style addition on extended scores (used for
`next_token_scores + beam_scores[:, None]`): `nan` absorbs, opposite
infinities give `nan`. -/
def FScore.add : FScore → FScore → FScore
  | .nan, _ => .nan
  | _, .nan => .nan
  | .posInf, .negInf => .nan
  | .negInf, .posInf => .nan
  | .posInf, _ => .posInf
  | _, .posInf => .posInf
  | .negInf, _ => .negInf
  | _, .negInf => .negInf
  | .val a, .val b => .val (a + b)

/-- Multiplication of a score by a natural number (used for the
cross-multiplied length-penalty comparison; the multiplier is a positive
power of a sequence length there). -/
def FScore.mulNat : FScore → Nat → FScore
  | .val q, n => .val (q * n)
  | .posInf, n => if n = 0 then .val 0 else .posInf
  | .negInf, n => if n = 0 then .val 0 else .negInf
  | .nan, _ => .nan

/-- `penLt lp s1 l1 s2 l2` models `s1 / l1 ^ lp < s2 / l2 ^ lp`, the comparison
of length-penalized hypothesis scores, via cross-multiplication (the lengths
are positive in every use). -/
def penLt (lp : Nat) (s1 : FScore) (l1 : Nat) (s2 : FScore) (l2 : Nat) : Prop :=
  fsLt (s1.mulNat (l2 ^ lp)) (s2.mulNat (l1 ^ lp))

instance (lp : Nat) (s1 : FScore) (l1 : Nat) (s2 : FScore) (l2 : Nat) :
    Decidable (penLt lp s1 l1 s2 l2) :=
  inferInstanceAs (Decidable (fsLt _ _))

/-- The candidate order realised by
`torch.topk(..., largest=True, sorted=True)` on an enumerated score vector:
`a` is placed before `b` when `a` has the strictly larger score, or the scores
are equal and `a` has the smaller (or equal) flattened index.  This is the
index-based deterministic tie-break of the source. -/
def candBefore (a b : Nat × FScore) : Prop :=
  fsLt b.2 a.2 ∨ (a.2 = b.2 ∧ a.1 ≤ b.1)

instance : DecidableRel candBefore := fun _ _ =>
  inferInstanceAs (Decidable (_ ∨ _))

instance : IsTotal (Nat × FScore) candBefore := by
  constructor
  intro a b
  have hinj : a.2.key = b.2.key → a.2 = b.2 := by
    intro he
    cases ha : a.2 <;> cases hb : b.2 <;> simp_all [FScore.key, Prod.ext_iff]
  rcases Nat.lt_trichotomy a.2.key.1 b.2.key.1 with h1 | h1 | h1
  · exact Or.inr (Or.inl (Or.inl h1))
  · rcases Int.lt_trichotomy a.2.key.2 b.2.key.2 with h2 | h2 | h2
    · exact Or.inr (Or.inl (Or.inr ⟨h1, h2⟩))
    · have he : a.2 = b.2 := hinj (Prod.ext h1 h2)
      rcases Nat.le_total a.1 b.1 with h3 | h3
      · exact Or.inl (Or.inr ⟨he, h3⟩)
      · exact Or.inr (Or.inr ⟨he.symm, h3⟩)
    · exact Or.inl (Or.inl (Or.inr ⟨h1.symm, h2⟩))
  · exact Or.inl (Or.inl (Or.inl h1))

instance : IsTrans (Nat × FScore) candBefore := by
  constructor
  intro a b c hab hbc
  rcases hab with hab | ⟨habe, habi⟩
  · rcases hbc with hbc | ⟨hbce, _⟩
    · rcases hab with h1 | ⟨h1, h1'⟩ <;> rcases hbc with h2 | ⟨h2, h2'⟩
      · exact Or.inl (Or.inl (Nat.lt_trans h2 h1))
      · exact Or.inl (Or.inl (h2 ▸ h1))
      · exact Or.inl (Or.inl (h1 ▸ h2))
      · exact Or.inl (Or.inr ⟨h2.trans h1, Int.lt_trans h2' h1'⟩)
    · exact Or.inl (hbce ▸ hab)
  · rcases hbc with hbc | ⟨hbce, hbci⟩
    · exact Or.inl (habe ▸ hbc)
    · exact Or.inr ⟨habe.trans hbce, Nat.le_trans habi hbci⟩

/-- Model of
`torch.topk(flat_scores, k, dim=1, largest=True, sorted=True)` on one
flattened per-example score vector: enumerate the vector with its flattened
indices, sort by descending score with ties broken by the lower flattened
index, and keep the first `k` entries.  Each result pair is
`(flattened index, score)`. -/
def beamTopk (k : Nat) (v : List FScore) : List (Nat × FScore) :=
  (List.insertionSort candBefore v.enum).take k

/-- One example's candidate-selection step of `beam_search`
(`my_model.py` lines 3196-3206): flatten the `num_beams` rows into one vector
of size `num_beams * vocab`, take the top `2 * num_beams` entries, and
decompose each selected flattened index `i` into the parent beam `i / vocab`
(`torch_int_div(next_tokens, vocab_size)`) and the token id `i % vocab`
(`next_tokens % vocab_size`).  Each output triple is
`(score, parent beam index, token id)`. -/
def selectNextCandidates (numBeams vocab : Nat) (rows : List (List FScore)) :
    List (FScore × Nat × Nat) :=
  (beamTopk (2 * numBeams) rows.flatten).map (fun p => (p.2, p.1 / vocab, p.1 % vocab))

/-- The running beam-score vector at loop entry (`my_model.py` lines
3131-3135): a `(batch_size, num_beams)` matrix of zeros whose columns `1:` are
set to `-1e9`, then flattened row-major by `view((batch_size * num_beams,))`. -/
def initBeamScores (batchSize numBeams : Nat) : List FScore :=
  ((List.range batchSize).map (fun _ =>
    (List.range numBeams).map (fun j =>
      if j = 0 then FScore.val 0 else FScore.val (-1000000000)))).flatten

/-- Model of `past_state.index_select(0, beam_idx)`: the new tensor has
`beam_idx.length` slots along the beam axis and slot `k` holds the old slot
`beam_idx[k]`; an out-of-range index is a fatal error (`none`). -/
def indexSelect {α : Type} (t : List α) : List Nat → Option (List α)
  | [] => some []
  | i :: rest =>
    match t[i]?, indexSelect t rest with
    | some x, some xs => some (x :: xs)
    | _, _ => none

/-- `indexSelect` applied to each tensor of a list (the first two cached
states of a layer). -/
def selectAll {α : Type} (beamIdx : List Nat) : List (List α) → Option (List (List α))
  | [] => some []
  | st :: rest =>
    match indexSelect st beamIdx, selectAll beamIdx rest with
    | some st', some rest' => some (st' :: rest')
    | _, _ => none

/-- One layer of `_reorder_cache`: reorder the first two cached states
(`layer_past[:2]`, the per-beam self-attention key/value states) along the
beam axis and keep `layer_past[2:]` (the cached cross-attention states)
unchanged. -/
def reorderLayer {α : Type} (beamIdx : List Nat) (layer : List (List α)) :
    Option (List (List α)) :=
  (selectAll beamIdx (layer.take 2)).map (fun sel => sel ++ layer.drop 2)

/-- Model of `_reorder_cache(past, beam_idx)` (`my_model.py` lines 2437-2445):
a cache is a list of layers, each layer a list of cached tensors indexed along
the beam axis. -/
def _reorder_cache {α : Type} (past : List (List (List α))) (beamIdx : List Nat) :
    Option (List (List (List α))) :=
  match past with
  | [] => some []
  | layer :: rest =>
    match reorderLayer beamIdx layer, _reorder_cache rest beamIdx with
    | some layer', some rest' => some (layer' :: rest')
    | _, _ => none

/-- Model of `shift_tokens_right(input_ids, pad_token_id, decoder_start_token_id)`
(`my_model.py` lines 80-93).  Row-wise: the shifted row is
`decoder_start_token_id :: row.dropLast` (build zeros, copy `[:, :-1]` into
`[:, 1:]`, write the start token into column 0); if `pad_token_id` is `None`
a `ValueError` is raised; otherwise `masked_fill_` replaces every `-100`
entry of the whole shifted matrix by `pad_token_id`. -/
def shift_tokens_right (input_ids : List (List Int)) (pad_token_id : Option Int)
    (decoder_start_token_id : Int) : Except String (List (List Int)) :=
  let shifted := input_ids.map (fun row => decoder_start_token_id :: row.dropLast)
  match pad_token_id with
  | none => Except.error "self.model.config.pad_token_id has to be defined."
  | some pad =>
    Except.ok (shifted.map (fun row => row.map (fun x => if x = -100 then pad else x)))

/-- The fatal (configuration / consistency) errors the generation control
functions can raise before or at loop entry. -/
inductive GenError where
  | bothMaxLengthAndMaxNewTokens
  | minLengthComparisonWithNone
  | minLengthGtMaxLength
  | numBeamGroupsGtNumBeams
  | encoderNoRepeatOnDecoderOnly
  | duplicateProcessor
  | duplicateCriterion
  | numReturnSequencesGtNumBeams
  | maxLengthNotInCriteria
  | batchDimMismatch
  | topkOutOfRange
  deriving DecidableEq

/-- The logits-processor classes of the source, as tags; a tag stands for the
Python type of the rule instance. -/
inductive ProcTag where
  | hammingDiversity
  | repetitionPenalty
  | noRepeatNGram
  | encoderNoRepeatNGram
  | noBadWords
  | minLengthProc
  | prefixConstrained
  | forcedBOS
  | forcedEOS
  | infNanRemove
  | expDecayLengthPenalty
  | suppressTokens
  | suppressTokensAtBegin
  | forceTokens
  | logitNormalization
  deriving DecidableEq

/-- The fixed registration order of the default rules in
`_get_logits_processor` (`my_model.py` lines 2515-2557), used to state claim
C5: every activated default rule is appended in this order. -/
def canonicalOrder : List ProcTag :=
  [ProcTag.hammingDiversity, ProcTag.repetitionPenalty, ProcTag.noRepeatNGram,
   ProcTag.encoderNoRepeatNGram, ProcTag.noBadWords, ProcTag.minLengthProc,
   ProcTag.prefixConstrained, ProcTag.forcedBOS, ProcTag.forcedEOS,
   ProcTag.infNanRemove, ProcTag.expDecayLengthPenalty, ProcTag.suppressTokens,
   ProcTag.suppressTokensAtBegin, ProcTag.forceTokens]

/-- The configuration consumed by `_get_logits_processor`.  Each `...Active`
flag models the corresponding activation condition of the source after its
`None`-to-config resolution (e.g. `repetitionPenaltyActive` stands for
`repetition_penalty is not None and repetition_penalty != 1.0`);
`custom` is the caller-supplied `logits_processor` list (by rule type). -/
structure ProcCfg where
  diversityPenaltyActive : Bool
  repetitionPenaltyActive : Bool
  noRepeatNgramActive : Bool
  encoderNoRepeatNgramActive : Bool
  isEncoderDecoder : Bool
  badWordsActive : Bool
  minLengthActive : Bool
  prefixConstrainedActive : Bool
  forcedBosActive : Bool
  forcedEosActive : Bool
  removeInvalidValues : Bool
  expDecayActive : Bool
  suppressTokensActive : Bool
  beginSuppressActive : Bool
  forcedDecoderIdsActive : Bool
  custom : List ProcTag
  renormalizeLogits : Bool

/-- The sequence of conditional `processors.append(...)` calls of
`_get_logits_processor`, in source order. -/
def defaultProcessors (cfg : ProcCfg) : List ProcTag :=
  (if cfg.diversityPenaltyActive then [ProcTag.hammingDiversity] else []) ++
  (if cfg.repetitionPenaltyActive then [ProcTag.repetitionPenalty] else []) ++
  (if cfg.noRepeatNgramActive then [ProcTag.noRepeatNGram] else []) ++
  (if cfg.encoderNoRepeatNgramActive then [ProcTag.encoderNoRepeatNGram] else []) ++
  (if cfg.badWordsActive then [ProcTag.noBadWords] else []) ++
  (if cfg.minLengthActive then [ProcTag.minLengthProc] else []) ++
  (if cfg.prefixConstrainedActive then [ProcTag.prefixConstrained] else []) ++
  (if cfg.forcedBosActive then [ProcTag.forcedBOS] else []) ++
  (if cfg.forcedEosActive then [ProcTag.forcedEOS] else []) ++
  (if cfg.removeInvalidValues then [ProcTag.infNanRemove] else []) ++
  (if cfg.expDecayActive then [ProcTag.expDecayLengthPenalty] else []) ++
  (if cfg.suppressTokensActive then [ProcTag.suppressTokens] else []) ++
  (if cfg.beginSuppressActive then [ProcTag.suppressTokensAtBegin] else []) ++
  (if cfg.forcedDecoderIdsActive then [ProcTag.forceTokens] else [])

/-- Model of `_merge_criteria_processor_list` (`my_model.py` lines 2575-2594):
an empty custom list returns the defaults; a custom entry whose type equals a
default entry's type raises `ValueError`; otherwise the custom entries are
appended after the defaults. -/
def _merge_criteria_processor_list {α : Type} (defaultList customList : List α)
    (sameType : α → α → Bool) (err : GenError) : Except GenError (List α) :=
  if customList.isEmpty then Except.ok defaultList
  else if defaultList.any (fun d => customList.any (fun c => sameType d c)) then
    Except.error err
  else Except.ok (defaultList ++ customList)

/-- Model of `_get_logits_processor` (`my_model.py` lines 2447-2562): raise if
`encoder_no_repeat_ngram_size` is requested on a non-encoder-decoder
configuration; append the activated default rules in registration order; merge
the caller-supplied rules (duplicate rule types raise); append
`LogitNormalization` last when `renormalize_logits` is set. -/
def _get_logits_processor (cfg : ProcCfg) : Except GenError (List ProcTag) :=
  if cfg.encoderNoRepeatNgramActive && !cfg.isEncoderDecoder then
    Except.error GenError.encoderNoRepeatOnDecoderOnly
  else
    match _merge_criteria_processor_list (defaultProcessors cfg) cfg.custom
        (fun a b => decide (a = b)) GenError.duplicateProcessor with
    | Except.error e => Except.error e
    | Except.ok merged =>
      Except.ok (merged ++ if cfg.renormalizeLogits then [ProcTag.logitNormalization] else [])

/-- `input_ids.shape[-1]` of the matrix generation starts from: `generate`
builds `gen_input_ids` of shape `(batch_size, 1)` (one `decoder_start_token_id`
per example, `my_model.py` line 2840), so the initial length is `1`. -/
def input_ids_seq_length : Nat := 1

/-- `input_ids.shape[-1]` of a token matrix (all rows have equal length). -/
def seqLen (inputIds : List (List Nat)) : Nat :=
  (inputIds.head?.map List.length).getD 0

/-- Modelled from the spec: the stopping criteria of section 4.2
(`MaxLengthCriteria`, `MaxTimeCriteria` and caller-supplied predicates live in
`..utils`, which is not among the given sources).  A criterion is polymorphic
over "given the token history, return done-or-not". -/
inductive Criterion where
  | maxLengthCrit (maxLength : Nat)
  | maxTimeCrit (maxTime : Int)
  | customCrit (fires : List (List Nat) → Bool)

/-- Modelled from the spec: whether one criterion fires.  `MaxLengthCriteria`
fires when `input_ids.shape[-1] >= max_length`; wall-clock time is outside the
embedding, so `maxTimeCrit` never fires here (a firing time criterion can be
represented as a `customCrit`). -/
def criterionFires (inputIds : List (List Nat)) : Criterion → Bool
  | .maxLengthCrit m => decide (m ≤ seqLen inputIds)
  | .maxTimeCrit _ => false
  | .customCrit p => p inputIds

/-- Modelled from the spec: a criteria list is OR-combined
(`stopping_criteria(input_ids, scores)` is `any(criteria(...))`). -/
def stoppingCriteriaFires (criteria : List Criterion) (inputIds : List (List Nat)) : Bool :=
  criteria.any (criterionFires inputIds)

/-- Whether two criteria have the same Python type (used by the duplicate
check of `_merge_criteria_processor_list`). -/
def criterionSameType : Criterion → Criterion → Bool
  | .maxLengthCrit _, .maxLengthCrit _ => true
  | .maxTimeCrit _, .maxTimeCrit _ => true
  | .customCrit _, .customCrit _ => true
  | _, _ => false

/-- Modelled from the spec: the `StoppingCriteriaList.max_length` property
consulted at `my_model.py` line 2921 — the `max_length` of the first
`MaxLengthCriteria` in the list, `None` when there is none. -/
def maxLengthOf : List Criterion → Option Nat
  | [] => none
  | Criterion.maxLengthCrit m :: _ => some m
  | _ :: rest => maxLengthOf rest

/-- Model of `_get_stopping_criteria` (`my_model.py` lines 2564-2573): append
a max-length criterion when `max_length` is set, a max-time criterion when
`max_time` is set, then merge the caller-supplied list with the duplicate-type
check. -/
def _get_stopping_criteria (maxLength : Option Nat) (maxTime : Option Int)
    (custom : List Criterion) : Except GenError (List Criterion) :=
  let criteria :=
    (match maxLength with | some m => [Criterion.maxLengthCrit m] | none => []) ++
    (match maxTime with | some t => [Criterion.maxTimeCrit t] | none => [])
  _merge_criteria_processor_list criteria custom criterionSameType GenError.duplicateCriterion

/-- The arguments of `generate` that its validation logic (steps 5-9,
`my_model.py` lines 2842-2922) consumes, after the `None`-to-config resolution
of the token ids.  `configMaxLength` / `configMinLength` model
`self.config.max_length` / `self.config.min_length` (the config object lives
outside the given sources and its fields may be unset). -/
structure GenArgs where
  maxLength : Option Nat
  maxNewTokens : Option Nat
  minLength : Option Nat
  configMaxLength : Option Nat
  configMinLength : Option Nat
  maxTime : Option Int
  numBeams : Nat
  numBeamGroups : Nat
  numReturnSequences : Nat
  procCfg : ProcCfg
  customCriteria : List Criterion

/-- The fully-resolved configuration `generate` hands to `beam_search` when no
configuration error was raised. -/
structure ResolvedGen where
  maxLength : Option Nat
  minLength : Option Nat
  processors : List ProcTag
  criteria : List Criterion

/-- Step 5 of `generate` (`my_model.py` lines 2844-2862): with neither length
argument, fall back to `config.max_length` (after a deprecation warning); with
only `max_new_tokens`, the effective maximum is
`max_new_tokens + input_ids_seq_length`; with both, raise `ValueError`. -/
def resolveMaxLength (maxLength maxNewTokens configMaxLength : Option Nat) :
    Except GenError (Option Nat) :=
  match maxLength, maxNewTokens with
  | some _, some _ => Except.error GenError.bothMaxLengthAndMaxNewTokens
  | none, some k => Except.ok (some (k + input_ids_seq_length))
  | some m, none => Except.ok (some m)
  | none, none => Except.ok configMaxLength

/-- Steps 6-9 of `generate` after length resolution (`my_model.py` lines
2878-2922): the `num_beam_groups` check, `_get_logits_processor`,
`_get_stopping_criteria`, the `num_return_sequences` check, and the
`stopping_criteria.max_length is None` check. -/
def generateValidateRest (args : GenArgs) (maxLen minLen : Option Nat) :
    Except GenError ResolvedGen :=
  if args.numBeamGroups > args.numBeams then Except.error GenError.numBeamGroupsGtNumBeams
  else
    match _get_logits_processor args.procCfg with
    | Except.error e => Except.error e
    | Except.ok procs =>
      match _get_stopping_criteria maxLen args.maxTime args.customCriteria with
      | Except.error e => Except.error e
      | Except.ok criteria =>
        if args.numReturnSequences > args.numBeams then
          Except.error GenError.numReturnSequencesGtNumBeams
        else
          match maxLengthOf criteria with
          | none => Except.error GenError.maxLengthNotInCriteria
          | some _ =>
            Except.ok { maxLength := maxLen, minLength := minLen,
                        processors := procs, criteria := criteria }

/-- The `min_length` resolution of `generate` (`my_model.py` line 2863):
the argument if set, else `self.config.min_length`. -/
def resolveMinLength (args : GenArgs) : Option Nat :=
  match args.minLength with
  | some m => some m
  | none => args.configMinLength

/-- The validation and configuration-resolution part of `generate`
(`my_model.py` lines 2842-2922), every raise of which happens before the
search loop starts.  The `min_length > max_length` comparison with an unset
`max_length` models the `TypeError` Python raises when comparing an `int`
against `None`. -/
def generateValidate (args : GenArgs) : Except GenError ResolvedGen :=
  match resolveMaxLength args.maxLength args.maxNewTokens args.configMaxLength with
  | Except.error e => Except.error e
  | Except.ok maxLen =>
    match resolveMinLength args, maxLen with
    | some _, none => Except.error GenError.minLengthComparisonWithNone
    | some mn, some mx =>
      if mn > mx then Except.error GenError.minLengthGtMaxLength
      else generateValidateRest args maxLen (resolveMinLength args)
    | none, _ => generateValidateRest args maxLen (resolveMinLength args)

/-- Modelled from the spec (section 4.3): one finished hypothesis of a beam
group — its token sequence and its cumulative log-probability score. -/
structure BeamHyp where
  tokens : List Nat
  score : FScore
  deriving DecidableEq

/-- Modelled from the spec (section 4.3): one input example's group of
hypotheses — the bounded collection of finished hypotheses plus the group's
done flag. -/
structure BeamGroup where
  beams : List BeamHyp
  done : Bool
  deriving DecidableEq

/-- Ranking of finished hypotheses by descending length-penalized score
(`score / length ^ length_penalty`); on ties the earlier (already inserted)
hypothesis stays first because the sort below is stable. -/
def hypBefore (lp : Nat) (h1 h2 : BeamHyp) : Prop :=
  ¬ penLt lp h1.score h1.tokens.length h2.score h2.tokens.length

instance (lp : Nat) : DecidableRel (hypBefore lp) := fun _ _ =>
  inferInstanceAs (Decidable (¬ _))

/-- Modelled from the spec (section 4.3 step 3): insert a completed hypothesis
into the group's bounded finished set, keyed by length-penalized score.  When
the set already holds `num_beams` entries and the new score does not exceed
the minimum, the candidate is discarded (a tie is discarded as well). -/
def addHyp (lp numBeams : Nat) (g : BeamGroup) (h : BeamHyp) : BeamGroup :=
  { g with beams := (List.insertionSort (hypBefore lp) (g.beams ++ [h])).take numBeams }

/-- Modelled from the spec (section 4.3 step 6): a group is done when its
finished set is full and early stopping is on, or when the finished set is
full and the best candidate score can no longer beat the worst finished
length-penalized score, or unconditionally once `max_length` is hit. -/
def groupIsDoneF (numBeams lp maxLength : Nat) (earlyStopping : Bool)
    (g : BeamGroup) (bestSum : FScore) (curLen : Nat) : Bool :=
  if g.beams.length < numBeams then decide (maxLength ≤ curLen)
  else if earlyStopping then true
  else
    match (List.insertionSort (hypBefore lp) g.beams).getLast? with
    | none => decide (maxLength ≤ curLen)
    | some w =>
      decide (¬ penLt lp w.score w.tokens.length bestSum curLen)
        || decide (maxLength ≤ curLen)

/-- Modelled from the spec (section 4.3 step 3): walk the `2 * num_beams`
candidates of one group in descending score order; an `eos` candidate
completes a hypothesis, any other candidate fills the next live slot (with its
parent index made global); stop once `num_beams` live slots are filled. -/
def walkCands (numBeams eosTokenId lp : Nat) (exIdx : Nat) (inputIds : List (List Nat)) :
    List (FScore × Nat × Nat) → BeamGroup → List (FScore × Nat × Nat) →
    BeamGroup × List (FScore × Nat × Nat)
  | [], g, live => (g, live)
  | (s, parent, tok) :: rest, g, live =>
    if numBeams ≤ live.length then (g, live)
    else if tok = eosTokenId then
      walkCands numBeams eosTokenId lp exIdx inputIds rest
        (addHyp lp numBeams g
          { tokens := inputIds.getD (exIdx * numBeams + parent) [] ++ [eosTokenId]
          , score := s })
        live
    else
      walkCands numBeams eosTokenId lp exIdx inputIds rest g
        (live ++ [(s, exIdx * numBeams + parent, tok)])

/-- Modelled from the spec (section 4.3 steps 3-6): process one group for one
step.  A group already done emits `num_beams` dummy `(0, 0, pad)` slots; an
active group walks its candidates, pads with dummy `(0, first beam, pad)`
slots if fewer than `num_beams` live candidates were found, and updates its
done flag. -/
def processGroup (numBeams eosTokenId padTokenId lp maxLength : Nat)
    (earlyStopping : Bool) (exIdx : Nat) (inputIds : List (List Nat)) (curLen : Nat)
    (g : BeamGroup) (cands : List (FScore × Nat × Nat)) :
    BeamGroup × List (FScore × Nat × Nat) :=
  if g.done then (g, List.replicate numBeams (FScore.val 0, 0, padTokenId))
  else
    let w := walkCands numBeams eosTokenId lp exIdx inputIds cands g []
    let live := w.2 ++ List.replicate (numBeams - w.2.length)
      (FScore.val 0, exIdx * numBeams, padTokenId)
    let bestSum := match cands.head? with
      | some c => c.1
      | none => FScore.negInf
    ({ w.1 with
        done := w.1.done ||
          groupIsDoneF numBeams lp maxLength earlyStopping w.1 bestSum (curLen + 1) },
      live)

/-- The per-step output of the beam scorer: the updated groups and the flat
`next_beam_scores`, `next_beam_tokens`, `next_beam_indices` vectors. -/
structure StepOut where
  groups : List BeamGroup
  beamScores : List FScore
  beamTokens : List Nat
  beamIdx : List Nat

/-- Modelled from the spec (section 4.3): `beam_scorer.process` over the whole
batch. -/
def scorerProcess (numBeams eosTokenId padTokenId lp maxLength : Nat)
    (earlyStopping : Bool) (inputIds : List (List Nat)) (curLen : Nat)
    (groups : List BeamGroup) (cands : List (List (FScore × Nat × Nat))) : StepOut :=
  let per := (List.range groups.length).map (fun exIdx =>
    processGroup numBeams eosTokenId padTokenId lp maxLength earlyStopping exIdx
      inputIds curLen (groups.getD exIdx { beams := [], done := false })
      (cands.getD exIdx []))
  { groups := per.map Prod.fst
  , beamScores := (per.map (fun p => p.2.map (fun c => c.1))).flatten
  , beamTokens := (per.map (fun p => p.2.map (fun c => c.2.2))).flatten
  , beamIdx := (per.map (fun p => p.2.map (fun c => c.2.1))).flatten }

/-- `beam_scorer.is_done`: the pool reports done when every beam group
reports done. -/
def scorerIsDone (groups : List BeamGroup) : Bool :=
  groups.all (fun g => g.done)

/-- The context of one `beam_search` call: the search configuration, the
external scoring collaborator (`model`), the logits-processor pipeline
(`processors`) and the configured stopping criteria. -/
structure BeamCtx where
  numBeams : Nat
  vocab : Nat
  padTokenId : Nat
  eosTokenId : Nat
  earlyStopping : Bool
  lengthPenalty : Nat
  maxLength : Nat
  numReturnSequences : Nat
  model : List (List Nat) → List (List FScore)
  processors : List (List Nat) → List (List FScore) → List (List FScore)
  stoppingCriteria : List Criterion

/-- The mutable state of the `beam_search` loop: the token matrix, the running
beam-score vector, the step counter and the scorer's groups. -/
structure SearchState where
  inputIds : List (List Nat)
  beamScores : List FScore
  curLen : Nat
  scorer : List BeamGroup
  deriving DecidableEq

/-- One iteration body of the `while True` loop of `beam_search`
(`my_model.py` lines 3149-3236): invoke the scoring collaborator, run the
logits processors, add the running beam scores, flatten and select the top
`2 * num_beams` candidates per example, run `beam_scorer.process`, gather the
parent rows and append the chosen tokens, and increment `cur_len`. -/
def beamStep (ctx : BeamCtx) (st : SearchState) : SearchState :=
  let processed := ctx.processors st.inputIds (ctx.model st.inputIds)
  let withBeam := List.zipWith (fun row s => row.map (fun x => FScore.add x s))
    processed st.beamScores
  let grouped := (List.range st.scorer.length).map (fun b =>
    (withBeam.drop (b * ctx.numBeams)).take ctx.numBeams)
  let cands := grouped.map (selectNextCandidates ctx.numBeams ctx.vocab)
  let out := scorerProcess ctx.numBeams ctx.eosTokenId ctx.padTokenId
    ctx.lengthPenalty ctx.maxLength ctx.earlyStopping st.inputIds st.curLen
    st.scorer cands
  { inputIds := List.zipWith (fun i t => st.inputIds.getD i [] ++ [t])
      out.beamIdx out.beamTokens
  , beamScores := out.beamScores
  , curLen := st.curLen + 1
  , scorer := out.groups }

/-- The `while True` loop of `beam_search` (`my_model.py` lines 3138-3242,
`synced_gpus = False`), as a fuel-indexed recursion: run one step, then break
when `beam_scorer.is_done or stopping_criteria(input_ids, scores)` holds,
otherwise re-enter the step.  `none` means the fuel ran out before the loop
terminated. -/
def beamSearchLoop (ctx : BeamCtx) : Nat → SearchState → Option SearchState
  | 0, _ => none
  | fuel + 1, st =>
    let st' := beamStep ctx st
    if scorerIsDone st'.scorer || stoppingCriteriaFires ctx.stoppingCriteria st'.inputIds
    then some st'
    else beamSearchLoop ctx fuel st'

/-- Modelled from the spec (section 4.3): `beam_scorer.finalize` — promote
live beams into the finished sets, rank every group's finished hypotheses by
length-penalized score (ties keep the earlier insertion), keep the best
`num_return_sequences` per group, and pad all selected sequences on the right
to the longest selected length. -/
def finalizeScorer (ctx : BeamCtx) (st : SearchState) : List (List Nat) :=
  let selected := ((List.range st.scorer.length).map (fun b =>
    let g := st.scorer.getD b { beams := [], done := false }
    let g' := (List.range ctx.numBeams).foldl (fun acc j =>
      addHyp ctx.lengthPenalty ctx.numBeams acc
        { tokens := st.inputIds.getD (b * ctx.numBeams + j) []
        , score := st.beamScores.getD (b * ctx.numBeams + j) (FScore.val 0) }) g
    ((List.insertionSort (hypBefore ctx.lengthPenalty) g'.beams).take
      ctx.numReturnSequences).map (fun h => h.tokens))).flatten
  let maxLen := (selected.map List.length).foldl Nat.max 0
  selected.map (fun s => s ++ List.replicate (maxLen - s.length) ctx.padTokenId)

/-- Model of `beam_search` (`my_model.py` lines 2966-3255): check the batch
dimension of `input_ids` (`ValueError` on mismatch), initialise the running
beam scores and the scorer's groups, run the loop, and finalize.  The result
is `Except.ok none` when the fuel ran out before the loop terminated.

The `torch.topk(..., 2 * num_beams, ...)` call at line 3201 raises
`RuntimeError` whenever `2 * num_beams` exceeds the flattened width
`num_beams * vocab_size` (i.e. `vocab_size < 2`).  `vocab_size` is read from
the score tensor (`next_token_scores.shape[-1]`, line 3197) and is the fixed
row width of the scoring collaborator (`ctx.vocab`; spec section 6,
`next_token_raw_scores[beam][vocab]`), so this failure condition is
state-independent; the `while True` body runs at least once before any exit
check, so the raise of the first iteration is modelled at loop entry. -/
def beam_search (ctx : BeamCtx) (fuel : Nat) (inputIds0 : List (List Nat))
    (batchSize : Nat) : Except GenError (Option (List (List Nat))) :=
  if ctx.numBeams * batchSize ≠ inputIds0.length then
    Except.error GenError.batchDimMismatch
  else if ctx.numBeams * ctx.vocab < 2 * ctx.numBeams then
    Except.error GenError.topkOutOfRange
  else
    let st0 : SearchState :=
      { inputIds := inputIds0
      , beamScores := initBeamScores batchSize ctx.numBeams
      , curLen := seqLen inputIds0
      , scorer := List.replicate batchSize { beams := [], done := false } }
    Except.ok ((beamSearchLoop ctx fuel st0).map (finalizeScorer ctx))

/-- A concrete single-beam context used by witnesses: vocabulary `{0, 1}`,
eos token `1`, one maximum-length stopping criterion at length 2. -/
def ctxA : BeamCtx :=
  { numBeams := 1, vocab := 2, padTokenId := 0, eosTokenId := 1,
    earlyStopping := false, lengthPenalty := 1, maxLength := 2,
    numReturnSequences := 1,
    model := fun _ => [[FScore.val (-1), FScore.val (-2)]],
    processors := fun _ s => s,
    stoppingCriteria := [Criterion.maxLengthCrit 2] }

/-- The loop state `beam_search` builds for `ctxA` at loop entry. -/
def stA : SearchState :=
  { inputIds := [[0]], beamScores := initBeamScores 1 1, curLen := 1,
    scorer := List.replicate 1 { beams := [], done := false } }

/-- `ctxA` with a collaborator emitting a `nan` score and a pipeline that does
not remove it (`remove_invalid_values` disabled, empty processor chain). -/
def ctxNan : BeamCtx :=
  { numBeams := 1, vocab := 2, padTokenId := 0, eosTokenId := 1,
    earlyStopping := false, lengthPenalty := 1, maxLength := 2,
    numReturnSequences := 1,
    model := fun _ => [[FScore.nan, FScore.val (-2)]],
    processors := fun _ s => s,
    stoppingCriteria := [Criterion.maxLengthCrit 2] }

/-- A processor configuration with every rule inactive. -/
def procCfgNone : ProcCfg :=
  { diversityPenaltyActive := false, repetitionPenaltyActive := false,
    noRepeatNgramActive := false, encoderNoRepeatNgramActive := false,
    isEncoderDecoder := true, badWordsActive := false, minLengthActive := false,
    prefixConstrainedActive := false, forcedBosActive := false,
    forcedEosActive := false, removeInvalidValues := false,
    expDecayActive := false, suppressTokensActive := false,
    beginSuppressActive := false, forcedDecoderIdsActive := false,
    custom := [], renormalizeLogits := false }

/-- A processor configuration activating repetition penalty and min-length,
with final renormalization. -/
def cfgW : ProcCfg :=
  { procCfgNone with
    repetitionPenaltyActive := true
    minLengthActive := true
    renormalizeLogits := true }

/-- Concrete `generate` arguments: nothing set by the caller, a config default
`max_length` of 20. -/
def argsW : GenArgs :=
  { maxLength := none, maxNewTokens := none, minLength := none,
    configMaxLength := some 20, configMinLength := none, maxTime := none,
    numBeams := 1, numBeamGroups := 1, numReturnSequences := 1,
    procCfg := procCfgNone, customCriteria := [] }

/-- Indexing a flattened list of uniform-length rows: entry `b * n + t` of the
flattened vector is entry `t` of row `b`. -/
theorem flatten_getElem_uniform {α : Type} (n : Nat) (rows : List (List α))
    (hlen : ∀ r ∈ rows, r.length = n) (b t : Nat) (hb : b < rows.length)
    (ht : t < n) :
    rows.flatten[b * n + t]? = rows[b]?.bind (fun r => r[t]?) := by
  induction rows generalizing b with
  | nil => simp at hb
  | cons r rs ih =>
    have hr : r.length = n := hlen r (by simp)
    cases b with
    | zero =>
      rw [List.flatten_cons, Nat.zero_mul, Nat.zero_add,
        List.getElem?_append_left (by omega)]
      simp
    | succ b' =>
      have hidx : (b' + 1) * n + t = r.length + (b' * n + t) := by
        rw [hr]; ring
      rw [List.flatten_cons, hidx, List.getElem?_append_right (by omega)]
      have : r.length + (b' * n + t) - r.length = b' * n + t := by omega
      rw [this, List.getElem?_cons_succ]
      exact ih (fun x hx => hlen x (by simp [hx])) b' (by simpa using hb)

/-- C1.  At every decoding step, for each input example, `beam_search`
flattens the per-beam next-token score rows into one vector of size
`num_beams * vocab`; the selection returns exactly the top `2 * num_beams`
entries in descending `candBefore` order (score descending, ties broken by
the lower flattened index, i.e. lower beam index then lower token id,
deterministically), every selected entry dominating every unselected entry;
and each selected flattened index is decomposed into the parent beam index
`i / vocab_size` and the token id `i % vocab_size`. -/
theorem beam_search_topk_selection (numBeams vocab : Nat) (rows : List (List FScore))
    (hv : 0 < vocab) (hrows : rows.length = numBeams)
    (hlen : ∀ r ∈ rows, r.length = vocab) (hk : 2 * numBeams ≤ numBeams * vocab) :
    rows.flatten.length = numBeams * vocab
    ∧ (beamTopk (2 * numBeams) rows.flatten).length = 2 * numBeams
    ∧ List.Sorted candBefore (beamTopk (2 * numBeams) rows.flatten)
    ∧ (∃ rest, (beamTopk (2 * numBeams) rows.flatten ++ rest).Perm rows.flatten.enum
        ∧ ∀ p ∈ beamTopk (2 * numBeams) rows.flatten, ∀ q ∈ rest, candBefore p q)
    ∧ (∀ i, i < numBeams * vocab →
        rows.flatten[i]? = rows[i / vocab]?.bind (fun r => r[i % vocab]?))
    ∧ selectNextCandidates numBeams vocab rows
        = (beamTopk (2 * numBeams) rows.flatten).map
            (fun p => (p.2, p.1 / vocab, p.1 % vocab)) := by
  have hflat : rows.flatten.length = numBeams * vocab := by
    rw [List.length_flatten]
    have hmap : rows.map List.length = List.replicate numBeams vocab := by
      refine List.eq_replicate_iff.2 ⟨by simpa using hrows, ?_⟩
      intro x hx
      rcases List.mem_map.1 hx with ⟨r, hr, rfl⟩
      exact hlen r hr
    rw [hmap, List.sum_replicate, smul_eq_mul]
  have hsortlen : (List.insertionSort candBefore rows.flatten.enum).length
      = numBeams * vocab := by
    rw [(List.perm_insertionSort candBefore rows.flatten.enum).length_eq,
      List.enum_length, hflat]
  have hsorted : List.Sorted candBefore
      (List.insertionSort candBefore rows.flatten.enum) :=
    List.sorted_insertionSort candBefore rows.flatten.enum
  refine ⟨hflat, ?_, ?_, ?_, ?_, rfl⟩
  · unfold beamTopk
    rw [List.length_take, hsortlen]
    exact Nat.min_eq_left hk
  · exact List.Pairwise.sublist (List.take_sublist _ _) hsorted
  · refine ⟨(List.insertionSort candBefore rows.flatten.enum).drop (2 * numBeams),
      ?_, ?_⟩
    · unfold beamTopk
      rw [List.take_append_drop]
      exact List.perm_insertionSort candBefore rows.flatten.enum
    · have hpw : List.Pairwise candBefore
          ((List.insertionSort candBefore rows.flatten.enum).take (2 * numBeams)
            ++ (List.insertionSort candBefore rows.flatten.enum).drop (2 * numBeams)) := by
        rw [List.take_append_drop]
        exact hsorted
      exact (List.pairwise_append.1 hpw).2.2
  · intro i hi
    have hb : i / vocab < rows.length := by
      rw [hrows]
      exact (Nat.div_lt_iff_lt_mul hv).2 (by omega)
    have ht : i % vocab < vocab := Nat.mod_lt _ hv
    have h := flatten_getElem_uniform vocab rows hlen (i / vocab) (i % vocab) hb ht
    have hidx : i / vocab * vocab + i % vocab = i := by
      rw [Nat.mul_comm]
      exact Nat.div_add_mod i vocab
    rwa [hidx] at h

/-- Witness for C1 at a concrete selection with a score tie across beams. -/
theorem beam_search_topk_selection_witness :
    (0 < 2 ∧ ([[FScore.val 3, FScore.val 1], [FScore.val 3, FScore.val 0]] :
        List (List FScore)).length = 2
      ∧ (∀ r ∈ ([[FScore.val 3, FScore.val 1], [FScore.val 3, FScore.val 0]] :
          List (List FScore)), r.length = 2)
      ∧ 2 * 2 ≤ 2 * 2)
    ∧ (([[FScore.val 3, FScore.val 1], [FScore.val 3, FScore.val 0]] :
        List (List FScore)).flatten.length = 2 * 2
      ∧ (beamTopk (2 * 2) ([[FScore.val 3, FScore.val 1],
          [FScore.val 3, FScore.val 0]] : List (List FScore)).flatten).length = 2 * 2
      ∧ List.Sorted candBefore (beamTopk (2 * 2)
          ([[FScore.val 3, FScore.val 1], [FScore.val 3, FScore.val 0]] :
            List (List FScore)).flatten)
      ∧ (∃ rest, (beamTopk (2 * 2) ([[FScore.val 3, FScore.val 1],
            [FScore.val 3, FScore.val 0]] : List (List FScore)).flatten ++ rest).Perm
              ([[FScore.val 3, FScore.val 1], [FScore.val 3, FScore.val 0]] :
                List (List FScore)).flatten.enum
          ∧ ∀ p ∈ beamTopk (2 * 2) ([[FScore.val 3, FScore.val 1],
              [FScore.val 3, FScore.val 0]] : List (List FScore)).flatten,
              ∀ q ∈ rest, candBefore p q)
      ∧ (∀ i, i < 2 * 2 →
          ([[FScore.val 3, FScore.val 1], [FScore.val 3, FScore.val 0]] :
            List (List FScore)).flatten[i]?
            = ([[FScore.val 3, FScore.val 1], [FScore.val 3, FScore.val 0]] :
                List (List FScore))[i / 2]?.bind (fun r => r[i % 2]?))
      ∧ selectNextCandidates 2 2 ([[FScore.val 3, FScore.val 1],
          [FScore.val 3, FScore.val 0]] : List (List FScore))
          = (beamTopk (2 * 2) ([[FScore.val 3, FScore.val 1],
              [FScore.val 3, FScore.val 0]] : List (List FScore)).flatten).map
              (fun p => (p.2, p.1 / 2, p.1 % 2))) :=
  ⟨⟨by decide, by decide, by decide, by decide⟩,
    beam_search_topk_selection 2 2
      [[FScore.val 3, FScore.val 1], [FScore.val 3, FScore.val 0]]
      (by decide) (by decide) (by decide) (by decide)⟩

/-- C2.  At loop entry `beam_search` initialises the running beam-score
vector (viewed row-major as `batch_size * num_beams` entries) so that for
every input example the first beam's score is `0` and every other beam's
score is `-1e9`. -/
theorem beam_search_init_beam_scores (batchSize numBeams : Nat) (b j : Nat)
    (hb : b < batchSize) (hj : j < numBeams) :
    (initBeamScores batchSize numBeams).length = batchSize * numBeams
    ∧ (initBeamScores batchSize numBeams)[b * numBeams + j]?
        = some (if j = 0 then FScore.val 0 else FScore.val (-1000000000)) := by
  constructor
  · unfold initBeamScores
    rw [List.length_flatten]
    have hmap : ((List.range batchSize).map (fun _ =>
        (List.range numBeams).map (fun j =>
          if j = 0 then FScore.val 0 else FScore.val (-1000000000)))).map List.length
        = List.replicate batchSize numBeams := by
      refine List.eq_replicate_iff.2 ⟨by simp, ?_⟩
      intro x hx
      rcases List.mem_map.1 hx with ⟨r, hr, rfl⟩
      rcases List.mem_map.1 hr with ⟨_, _, rfl⟩
      simp
    rw [hmap, List.sum_replicate, smul_eq_mul]
  · unfold initBeamScores
    rw [flatten_getElem_uniform numBeams _ ?_ b j ?_ hj]
    · simp only [List.getElem?_map, List.getElem?_range hb, Option.map_some,
        Option.bind_some, List.getElem?_replicate]
      simp [List.getElem?_map, List.getElem?_range hj, hb]
    · intro r hr
      rcases List.mem_map.1 hr with ⟨_, _, rfl⟩
      simp
    · simpa using hb

/-- Witness for C2: two examples, two beams, the second beam of the second
example. -/
theorem beam_search_init_beam_scores_witness :
    (1 < 2 ∧ 1 < 2)
    ∧ ((initBeamScores 2 2).length = 2 * 2
      ∧ (initBeamScores 2 2)[1 * 2 + 1]?
          = some (if 1 = 0 then FScore.val 0 else FScore.val (-1000000000))) :=
  ⟨⟨by decide, by decide⟩, beam_search_init_beam_scores 2 2 1 1 (by decide) (by decide)⟩

/-- `indexSelect` succeeds on in-range indices and gathers: slot `k` of the
result is slot `idx[k]` of the input. -/
theorem indexSelect_spec {α : Type} (t : List α) (idx : List Nat)
    (h : ∀ i ∈ idx, i < t.length) :
    ∃ t', indexSelect t idx = some t' ∧ t'.length = idx.length
      ∧ ∀ (k i : Nat), idx[k]? = some i → t'[k]? = t[i]? := by
  induction idx with
  | nil =>
    refine ⟨[], rfl, rfl, ?_⟩
    intro k i hk
    simp at hk
  | cons i rest ih =>
    have hi : i < t.length := h i (by simp)
    rcases ih (fun j hj => h j (by simp [hj])) with ⟨t', ht', hlen, hidx⟩
    refine ⟨t[i] :: t', ?_, by simp [hlen], ?_⟩
    · unfold indexSelect
      rw [List.getElem?_eq_getElem hi, ht']
    · intro k j hk
      cases k with
      | zero =>
        simp only [List.getElem?_cons_zero, Option.some.injEq] at hk
        subst hk
        simp [List.getElem?_eq_getElem hi]
      | succ k' =>
        simp only [List.getElem?_cons_succ] at hk ⊢
        exact hidx k' j hk

/-- `selectAll` succeeds when every index is in range for every tensor, and
gathers each tensor independently. -/
theorem selectAll_spec {α : Type} (beamIdx : List Nat) (sts : List (List α))
    (h : ∀ st ∈ sts, ∀ i ∈ beamIdx, i < st.length) :
    ∃ sts', selectAll beamIdx sts = some sts' ∧ sts'.length = sts.length
      ∧ ∀ (s : Nat) (st st' : List α), sts[s]? = some st → sts'[s]? = some st' →
          st'.length = beamIdx.length
          ∧ ∀ (k i : Nat), beamIdx[k]? = some i → st'[k]? = st[i]? := by
  induction sts with
  | nil =>
    refine ⟨[], rfl, rfl, ?_⟩
    intro s st st' hst _
    simp at hst
  | cons st rest ih =>
    rcases indexSelect_spec st beamIdx (h st (by simp)) with ⟨st', hst', hlen, hidx⟩
    rcases ih (fun x hx => h x (by simp [hx])) with ⟨rest', hrest', hrlen, hrprop⟩
    refine ⟨st' :: rest', ?_, by simp [hrlen], ?_⟩
    · unfold selectAll
      rw [hst', hrest']
    · intro s a a' ha ha'
      cases s with
      | zero =>
        simp only [List.getElem?_cons_zero, Option.some.injEq] at ha ha'
        subst ha
        subst ha'
        exact ⟨hlen, hidx⟩
      | succ s' =>
        simp only [List.getElem?_cons_succ] at ha ha'
        exact hrprop s' a a' ha ha'

/-- `reorderLayer` reorders the first two cached states along the beam axis
and leaves the states from position 2 on untouched. -/
theorem reorderLayer_spec {α : Type} (beamIdx : List Nat) (layer : List (List α))
    (h : ∀ st ∈ layer.take 2, ∀ i ∈ beamIdx, i < st.length) :
    ∃ layer', reorderLayer beamIdx layer = some layer'
      ∧ layer'.length = layer.length
      ∧ layer'.drop 2 = layer.drop 2
      ∧ ∀ (s : Nat), s < 2 → ∀ (st st' : List α), layer[s]? = some st → layer'[s]? = some st' →
          st'.length = beamIdx.length
          ∧ ∀ (k i : Nat), beamIdx[k]? = some i → st'[k]? = st[i]? := by
  rcases selectAll_spec beamIdx (layer.take 2) h with ⟨sel, hsel, hsellen, hselprop⟩
  refine ⟨sel ++ layer.drop 2, ?_, ?_, ?_, ?_⟩
  · unfold reorderLayer
    rw [hsel]
    rfl
  · rw [List.length_append, hsellen, List.length_take, List.length_drop]
    omega
  · rcases Nat.lt_or_ge layer.length 2 with hlt | hge
    · have h1 : layer.drop 2 = [] := List.drop_eq_nil_of_le (by omega)
      have h2 : sel.length ≤ 2 := by
        rw [hsellen, List.length_take]
        omega
      rw [h1, List.append_nil, List.drop_eq_nil_of_le (by omega)]
    · have h2 : sel.length = 2 := by
        rw [hsellen, List.length_take]
        omega
      rw [List.drop_left' h2]
  · intro s hs st st' hst hst'
    have hsb : s < layer.length := by
      rcases List.getElem?_eq_some.1 hst with ⟨hb, _⟩
      exact hb
    have hsel_s : sel[s]? = some st' := by
      rw [List.getElem?_append_left (by rw [hsellen, List.length_take]; omega)] at hst'
      exact hst'
    have htake_s : (layer.take 2)[s]? = some st := by
      rw [List.getElem?_take]
      simp [hs, hst]
    exact hselprop s st st' htake_s hsel_s

/-- C3.  For every cache and every in-range parent-index vector `beam_idx`,
`_reorder_cache` returns a cache in which, for each layer, each of the two
per-beam self-attention states holds at slot `k` the old state at slot
`beam_idx[k]`, while the remaining (cross-attention) cached states of the
layer are returned unchanged. -/
theorem reorder_cache_gathers_per_beam {α : Type} (past : List (List (List α)))
    (beamIdx : List Nat)
    (hin : ∀ layer ∈ past, ∀ st ∈ layer.take 2, ∀ i ∈ beamIdx, i < st.length) :
    ∃ newPast, _reorder_cache past beamIdx = some newPast
      ∧ newPast.length = past.length
      ∧ ∀ (l : Nat) (layer layer' : List (List α)), past[l]? = some layer → newPast[l]? = some layer' →
          layer'.length = layer.length
          ∧ layer'.drop 2 = layer.drop 2
          ∧ ∀ (s : Nat), s < 2 → ∀ (st st' : List α), layer[s]? = some st → layer'[s]? = some st' →
              st'.length = beamIdx.length
              ∧ ∀ (k i : Nat), beamIdx[k]? = some i → st'[k]? = st[i]? := by
  induction past with
  | nil =>
    refine ⟨[], rfl, rfl, ?_⟩
    intro l layer layer' hl _
    simp at hl
  | cons layer rest ih =>
    rcases reorderLayer_spec beamIdx layer (hin layer (by simp)) with
      ⟨layer', hlayer', hllen, hldrop, hlprop⟩
    rcases ih (fun x hx => hin x (by simp [hx])) with ⟨rest', hrest', hrlen, hrprop⟩
    refine ⟨layer' :: rest', ?_, by simp [hrlen], ?_⟩
    · unfold _reorder_cache
      rw [hlayer', hrest']
    · intro l a a' ha ha'
      cases l with
      | zero =>
        simp only [List.getElem?_cons_zero, Option.some.injEq] at ha ha'
        subst ha
        subst ha'
        exact ⟨hllen, hldrop, hlprop⟩
      | succ l' =>
        simp only [List.getElem?_cons_succ] at ha ha'
        exact hrprop l' a a' ha ha'

/-- Witness for C3: one layer with two self-attention states of four beam
slots and one cross-attention state, reordered by the parent indices
`[2, 0, 0, 1]` of the specification's test scenario. -/
theorem reorder_cache_gathers_per_beam_witness :
    (∀ layer ∈ ([[[10, 11, 12, 13], [20, 21, 22, 23], [77, 88]]] :
        List (List (List Nat))), ∀ st ∈ layer.take 2, ∀ i ∈ [2, 0, 0, 1],
          i < st.length)
    ∧ ∃ newPast,
        _reorder_cache ([[[10, 11, 12, 13], [20, 21, 22, 23], [77, 88]]] :
          List (List (List Nat))) [2, 0, 0, 1] = some newPast
        ∧ newPast.length = ([[[10, 11, 12, 13], [20, 21, 22, 23], [77, 88]]] :
            List (List (List Nat))).length
        ∧ ∀ (l : Nat) (layer layer' : List (List Nat)),
            ([[[10, 11, 12, 13], [20, 21, 22, 23], [77, 88]]] :
              List (List (List Nat)))[l]? = some layer →
            newPast[l]? = some layer' →
            layer'.length = layer.length
            ∧ layer'.drop 2 = layer.drop 2
            ∧ ∀ (s : Nat), s < 2 → ∀ (st st' : List Nat), layer[s]? = some st → layer'[s]? = some st' →
                st'.length = ([2, 0, 0, 1] : List Nat).length
                ∧ ∀ (k i : Nat), ([2, 0, 0, 1] : List Nat)[k]? = some i →
                    st'[k]? = st[i]? :=
  ⟨by decide,
    reorder_cache_gathers_per_beam
      [[[10, 11, 12, 13], [20, 21, 22, 23], [77, 88]]] [2, 0, 0, 1] (by decide)⟩

/-- C4.  The generation loop terminates exactly when
`beam_scorer.is_done or stopping_criteria(input_ids, scores)` holds: (1) any
state the loop exits with satisfies the disjunction; (2) when neither disjunct
holds after a step, the loop re-enters the step state; (3) when the
disjunction holds after a step, the loop exits with that state. -/
theorem beam_search_loop_termination (ctx : BeamCtx) :
    (∀ (fuel : Nat) (st st' : SearchState), beamSearchLoop ctx fuel st = some st' →
        (scorerIsDone st'.scorer
          || stoppingCriteriaFires ctx.stoppingCriteria st'.inputIds) = true)
    ∧ (∀ (fuel : Nat) (st : SearchState),
        (scorerIsDone (beamStep ctx st).scorer
          || stoppingCriteriaFires ctx.stoppingCriteria (beamStep ctx st).inputIds) = false →
        beamSearchLoop ctx (fuel + 1) st = beamSearchLoop ctx fuel (beamStep ctx st))
    ∧ (∀ (fuel : Nat) (st : SearchState),
        (scorerIsDone (beamStep ctx st).scorer
          || stoppingCriteriaFires ctx.stoppingCriteria (beamStep ctx st).inputIds) = true →
        beamSearchLoop ctx (fuel + 1) st = some (beamStep ctx st)) := by
  refine ⟨?_, ?_, ?_⟩
  · intro fuel
    induction fuel with
    | zero =>
      intro st st' h
      simp [beamSearchLoop] at h
    | succ fuel ih =>
      intro st st' h
      rw [beamSearchLoop] at h
      by_cases hc : (scorerIsDone (beamStep ctx st).scorer
          || stoppingCriteriaFires ctx.stoppingCriteria (beamStep ctx st).inputIds) = true
      · rw [if_pos hc] at h
        cases h
        exact hc
      · rw [if_neg hc] at h
        exact ih (beamStep ctx st) st' h
  · intro fuel st h
    rw [beamSearchLoop, if_neg (by rw [h]; simp)]
  · intro fuel st h
    rw [beamSearchLoop, if_pos h]

/-- Witness for C4: with the concrete context `ctxA`, the loop run from `stA`
exits after one step, and the exit state satisfies the termination
disjunction. -/
theorem beam_search_loop_termination_witness :
    (scorerIsDone (beamStep ctxA stA).scorer
      || stoppingCriteriaFires ctxA.stoppingCriteria (beamStep ctxA stA).inputIds) = true :=
  (beam_search_loop_termination ctxA).1 1 stA (beamStep ctxA stA) (by decide)

/-- C9.  `beam_search` is deterministic: two runs with identical inputs (the
same initial token matrix, the same deterministic collaborator and pipeline in
the context, the same configuration, and no source of randomness in the
embedding) return identical results; every tie-break in candidate selection
is the index-based order `candBefore`. -/
theorem beam_search_deterministic (ctx1 ctx2 : BeamCtx) (fuel : Nat)
    (ids1 ids2 : List (List Nat)) (b1 b2 : Nat)
    (hctx : ctx1 = ctx2) (hids : ids1 = ids2) (hb : b1 = b2) :
    beam_search ctx1 fuel ids1 b1 = beam_search ctx2 fuel ids2 b2 := by
  subst hctx
  subst hids
  subst hb
  rfl

/-- Witness for C9 at the concrete context `ctxA`. -/
theorem beam_search_deterministic_witness :
    beam_search ctxA 3 [[0]] 1 = beam_search ctxA 3 [[0]] 1 :=
  beam_search_deterministic ctxA ctxA 3 [[0]] [[0]] 1 1 rfl rfl rfl

/-- Counterexample to C6 as stated: with `remove_invalid_values` disabled
(empty processor chain) and a collaborator whose score row contains `nan`,
the generation call does not fail — `beam_search` returns generated
sequences.  The non-finite score is neither removed by the pipeline nor
detected by the loop. -/
theorem beam_search_nonfinite_silent :
    FScore.nan ∈ (ctxNan.model [[0]]).flatten
    ∧ ctxNan.processors [[0]] (ctxNan.model [[0]]) = ctxNan.model [[0]]
    ∧ beam_search ctxNan 3 [[0]] 1 = Except.ok (some [[0, 0]]) :=
  ⟨by decide, rfl, rfl⟩

/-- C6 (amended).  `beam_search` has no numeric-error path: under its shape
preconditions — the batch dimension matches, and the `torch.topk` in-range
requirement `2 * num_beams ≤ num_beams * vocab_size` for the call at line
3201 holds — it returns `Except.ok` for every collaborator and pipeline.  In
particular when a per-step score row contains `NaN`/`Inf` that the pipeline
does not remove, generation continues silently (the non-finite scores flow
into top-`k` selection) instead of failing with a fatal generation error;
the only in-loop raise, topk's shape error, is independent of score
finiteness. -/
theorem beam_search_no_numeric_error_path (ctx : BeamCtx) (fuel : Nat)
    (inputIds0 : List (List Nat)) (batchSize : Nat)
    (hdim : ctx.numBeams * batchSize = inputIds0.length)
    (htopk : 2 * ctx.numBeams ≤ ctx.numBeams * ctx.vocab) :
    ∃ r, beam_search ctx fuel inputIds0 batchSize = Except.ok r := by
  unfold beam_search
  rw [if_neg (by omega), if_neg (by omega)]
  exact ⟨_, rfl⟩

/-- Witness for C6's amended theorem at the `nan`-emitting context. -/
theorem beam_search_no_numeric_error_path_witness :
    (ctxNan.numBeams * 1 = ([[0]] : List (List Nat)).length
      ∧ 2 * ctxNan.numBeams ≤ ctxNan.numBeams * ctxNan.vocab)
    ∧ ∃ r, beam_search ctxNan 3 [[0]] 1 = Except.ok r :=
  ⟨⟨rfl, by decide⟩, beam_search_no_numeric_error_path ctxNan 3 [[0]] 1 rfl (by decide)⟩

/-- C5.  Every score-transform rule `_get_logits_processor` activates appears
in the chain in the fixed registration order: the activated default rules
form a sublist of `canonicalOrder` (repetition penalty before
no-repeat-n-gram before encoder-no-repeat-n-gram before bad-words before
min-length before prefix-constrained before forced-BOS before forced-EOS
before remove-invalid-values before exponential-decay-length-penalty before
suppress-tokens before begin-suppress-tokens before forced-token-ids), all
caller-supplied custom rules come after every default rule, and when
renormalization is enabled it is the last rule in the chain. -/
theorem logits_processor_fixed_order (cfg : ProcCfg) (l : List ProcTag)
    (h : _get_logits_processor cfg = Except.ok l) :
    l = defaultProcessors cfg ++ cfg.custom
        ++ (if cfg.renormalizeLogits then [ProcTag.logitNormalization] else [])
    ∧ (defaultProcessors cfg).Sublist canonicalOrder
    ∧ (cfg.renormalizeLogits = true → l.getLast? = some ProcTag.logitNormalization) := by
  have hchunk : ∀ (b : Bool) (t : ProcTag), (if b then [t] else []).Sublist [t] := by
    intro b t
    cases b
    · exact List.nil_sublist _
    · exact List.Sublist.refl _
  have hsub : (defaultProcessors cfg).Sublist canonicalOrder := by
    unfold defaultProcessors canonicalOrder
    simp only [List.append_assoc]
    exact List.Sublist.append (hchunk _ _) (List.Sublist.append (hchunk _ _)
      (List.Sublist.append (hchunk _ _) (List.Sublist.append (hchunk _ _)
      (List.Sublist.append (hchunk _ _) (List.Sublist.append (hchunk _ _)
      (List.Sublist.append (hchunk _ _) (List.Sublist.append (hchunk _ _)
      (List.Sublist.append (hchunk _ _) (List.Sublist.append (hchunk _ _)
      (List.Sublist.append (hchunk _ _) (List.Sublist.append (hchunk _ _)
      (List.Sublist.append (hchunk _ _) (hchunk _ _)))))))))))))
  have heq : l = defaultProcessors cfg ++ cfg.custom
      ++ (if cfg.renormalizeLogits then [ProcTag.logitNormalization] else []) := by
    unfold _get_logits_processor at h
    split at h
    · exact Except.noConfusion h
    · split at h
      · exact Except.noConfusion h
      · rename_i merged hmerge
        rcases h with ⟨rfl⟩
        unfold _merge_criteria_processor_list at hmerge
        split at hmerge
        · rename_i hempty
          rcases hmerge with ⟨rfl⟩
          rw [List.isEmpty_iff.1 hempty, List.append_nil]
        · split at hmerge
          · exact Except.noConfusion hmerge
          · rcases hmerge with ⟨rfl⟩
            rfl
  refine ⟨heq, hsub, ?_⟩
  intro hr
  rw [heq, hr]
  rw [if_pos rfl]
  exact List.getLast?_concat _

/-- Witness for C5: a configuration activating repetition penalty and
min-length with final renormalization. -/
theorem logits_processor_fixed_order_witness :
    _get_logits_processor cfgW
        = Except.ok [ProcTag.repetitionPenalty, ProcTag.minLengthProc,
            ProcTag.logitNormalization]
    ∧ (([ProcTag.repetitionPenalty, ProcTag.minLengthProc,
          ProcTag.logitNormalization] : List ProcTag)
          = defaultProcessors cfgW ++ cfgW.custom
            ++ (if cfgW.renormalizeLogits then [ProcTag.logitNormalization] else [])
        ∧ (defaultProcessors cfgW).Sublist canonicalOrder
        ∧ (cfgW.renormalizeLogits = true →
            ([ProcTag.repetitionPenalty, ProcTag.minLengthProc,
              ProcTag.logitNormalization] : List ProcTag).getLast?
              = some ProcTag.logitNormalization)) :=
  ⟨rfl, logits_processor_fixed_order cfgW _ rfl⟩

/-- When `generateValidateRest` succeeds, the resolved configuration carries
the resolved lengths and its criteria list contains a max-length criterion. -/
theorem generateValidateRest_ok (args : GenArgs) (maxLen minLen : Option Nat)
    (cfg : ResolvedGen) (h : generateValidateRest args maxLen minLen = Except.ok cfg) :
    cfg.maxLength = maxLen ∧ cfg.minLength = minLen
      ∧ (maxLengthOf cfg.criteria).isSome := by
  unfold generateValidateRest at h
  split at h
  · exact Except.noConfusion h
  · split at h
    · exact Except.noConfusion h
    · split at h
      · exact Except.noConfusion h
      · split at h
        · exact Except.noConfusion h
        · split at h
          · exact Except.noConfusion h
          · rename_i hml
            rcases h with ⟨rfl⟩
            exact ⟨rfl, rfl, by simp [hml]⟩

/-- C7.  The configuration validation of `generate` never lets the search
loop start with no stopping criterion: a successfully validated configuration
has a non-empty criteria list (indeed one containing a max-length criterion,
enforced by the fatal `stopping_criteria.max_length is None` check at
`my_model.py` line 2921); a configuration whose resolved criteria list would
be empty is rejected with a fatal configuration error before the loop. -/
theorem generate_requires_stopping_criterion (args : GenArgs) (cfg : ResolvedGen)
    (h : generateValidate args = Except.ok cfg) :
    cfg.criteria ≠ [] ∧ (maxLengthOf cfg.criteria).isSome := by
  have hsome : (maxLengthOf cfg.criteria).isSome := by
    unfold generateValidate at h
    split at h
    · exact Except.noConfusion h
    · split at h
      · exact Except.noConfusion h
      · split at h
        · exact Except.noConfusion h
        · exact (generateValidateRest_ok _ _ _ _ h).2.2
      · exact (generateValidateRest_ok _ _ _ _ h).2.2
  refine ⟨?_, hsome⟩
  intro hnil
  rw [hnil] at hsome
  simp [maxLengthOf] at hsome

/-- Witness for C7: default arguments with a config `max_length` of 20
validate successfully, and the resulting criteria list is non-empty. -/
theorem generate_requires_stopping_criterion_witness :
    ∃ cfg, generateValidate argsW = Except.ok cfg
      ∧ cfg.criteria ≠ [] ∧ (maxLengthOf cfg.criteria).isSome :=
  ⟨{ maxLength := some 20, minLength := none, processors := [],
     criteria := [Criterion.maxLengthCrit 20] },
   rfl, generate_requires_stopping_criterion argsW _ rfl⟩

/-- C8.  `generate` treats `max_length` and `max_new_tokens` as mutually
exclusive: supplying both raises a fatal configuration error before the loop
starts; supplying only `max_new_tokens` makes the effective maximum length
`max_new_tokens + input_ids_seq_length` (the initial input length). -/
theorem generate_max_length_arguments (args : GenArgs) :
    (∀ (m k : Nat), args.maxLength = some m → args.maxNewTokens = some k →
        generateValidate args = Except.error GenError.bothMaxLengthAndMaxNewTokens)
    ∧ (∀ (k : Nat) (cfg : ResolvedGen), args.maxLength = none →
        args.maxNewTokens = some k → generateValidate args = Except.ok cfg →
        cfg.maxLength = some (k + input_ids_seq_length)) := by
  constructor
  · intro m k hm hk
    unfold generateValidate resolveMaxLength
    rw [hm, hk]
  · intro k cfg hm hk h
    have hres : resolveMaxLength args.maxLength args.maxNewTokens args.configMaxLength
        = Except.ok (some (k + input_ids_seq_length)) := by
      unfold resolveMaxLength
      rw [hm, hk]
    unfold generateValidate at h
    rw [hres] at h
    split at h
    · exact Except.noConfusion h
    · rename_i maxLen hmaxeq
      rcases hmaxeq with ⟨rfl⟩
      split at h <;>
        first
          | exact Except.noConfusion h
          | exact (generateValidateRest_ok _ _ _ _ h).1
          | (split at h <;>
              first
                | exact Except.noConfusion h
                | exact (generateValidateRest_ok _ _ _ _ h).1)

/-- Witness for C8: both branches at concrete arguments — both length
arguments set is rejected; only `max_new_tokens = 7` resolves to an effective
maximum length of `7 + 1`. -/
theorem generate_max_length_arguments_witness :
    (({ argsW with maxLength := some 5, maxNewTokens := some 7 } : GenArgs).maxLength
        = some 5
      ∧ ({ argsW with maxLength := some 5, maxNewTokens := some 7 } : GenArgs).maxNewTokens
        = some 7
      ∧ generateValidate { argsW with maxLength := some 5, maxNewTokens := some 7 }
        = Except.error GenError.bothMaxLengthAndMaxNewTokens)
    ∧ (({ argsW with maxNewTokens := some 7 } : GenArgs).maxLength = none
      ∧ ({ argsW with maxNewTokens := some 7 } : GenArgs).maxNewTokens = some 7
      ∧ generateValidate { argsW with maxNewTokens := some 7 }
          = Except.ok
              { maxLength := some 8, minLength := none, processors := [],
                criteria := [Criterion.maxLengthCrit 8] }
      ∧ ({ maxLength := some 8, minLength := none, processors := [],
            criteria := [Criterion.maxLengthCrit 8] } : ResolvedGen).maxLength
          = some (7 + input_ids_seq_length)) :=
  ⟨⟨rfl, rfl,
    (generate_max_length_arguments
      { argsW with maxLength := some 5, maxNewTokens := some 7 }).1 5 7 rfl rfl⟩,
   ⟨rfl, rfl, rfl,
    (generate_max_length_arguments { argsW with maxNewTokens := some 7 }).2 7
      { maxLength := some 8, minLength := none, processors := [],
        criteria := [Criterion.maxLengthCrit 8] } rfl rfl rfl⟩⟩

/-- Counterexample to C10 as stated: with `decoder_start_token_id = -100`
(and a pad id distinct from it), column 0 does not hold
`decoder_start_token_id` — the `masked_fill_` of the source is applied to the
whole shifted matrix, column 0 included, so the start token is replaced by
`pad_token_id`. -/
theorem shift_tokens_right_start_sentinel :
    shift_tokens_right [[5]] (some 1) (-100) = Except.ok [[1]]
    ∧ shift_tokens_right [[5]] (some 1) (-100)
        ≠ Except.ok [[(-100 : Int)]] := by
  refine ⟨rfl, ?_⟩
  intro hcontra
  rw [show shift_tokens_right [[5]] (some 1) (-100) = Except.ok [[1]] from rfl]
    at hcontra
  simp at hcontra

/-- C10 (amended).  For every input-id matrix with non-empty rows,
`shift_tokens_right` returns a matrix of the same shape whose column 0 equals
`decoder_start_token_id` — or `pad_token_id` when `decoder_start_token_id`
is `-100`, since the `-100`-replacement is applied to the whole shifted
matrix — and whose columns `1..n-1` equal the input's columns `0..n-2` with
every `-100` entry replaced by `pad_token_id`; it raises a `ValueError`
(returning no partial result) whenever `pad_token_id` is `None`. -/
theorem shift_tokens_right_spec (input_ids : List (List Int)) (start : Int)
    (hne : ∀ row ∈ input_ids, row ≠ []) :
    shift_tokens_right input_ids none start
      = Except.error "self.model.config.pad_token_id has to be defined."
    ∧ ∀ (pad : Int), ∃ out,
        shift_tokens_right input_ids (some pad) start = Except.ok out
        ∧ out.length = input_ids.length
        ∧ ∀ (r : Nat) (row orow : List Int), input_ids[r]? = some row →
            out[r]? = some orow →
            orow.length = row.length
            ∧ orow[0]? = some (if start = -100 then pad else start)
            ∧ ∀ (j : Nat), j + 1 < row.length →
                orow[j + 1]? = row[j]?.map (fun x => if x = -100 then pad else x) := by
  constructor
  · rfl
  · intro pad
    have hout : shift_tokens_right input_ids (some pad) start
        = Except.ok ((input_ids.map (fun row => start :: row.dropLast)).map
            (fun srow => srow.map (fun x => if x = -100 then pad else x))) := rfl
    refine ⟨_, hout, by simp, ?_⟩
    intro r row orow hrow horow
    have hrmem : row ∈ input_ids := by
      rcases List.getElem?_eq_some.1 hrow with ⟨hb, he⟩
      exact he ▸ List.getElem_mem hb
    have hrpos : 0 < row.length := List.length_pos.2 (hne row hrmem)
    have ho : orow = (start :: row.dropLast).map
        (fun x => if x = -100 then pad else x) := by
      rw [List.getElem?_map, List.getElem?_map, hrow] at horow
      simp only [Option.map_some', Option.some.injEq] at horow
      exact horow.symm
    subst ho
    refine ⟨?_, ?_, ?_⟩
    · simp only [List.length_map, List.length_cons, List.length_dropLast]
      omega
    · rw [List.map_cons, List.getElem?_cons_zero]
    · intro j hj
      have hd : row.dropLast[j]? = row[j]? := by
        rw [List.dropLast_eq_take, List.getElem?_take, if_pos (by omega)]
      rw [List.map_cons, List.getElem?_cons_succ, List.getElem?_map, hd]

/-- Witness for C10's amended theorem at a concrete matrix containing a
`-100` label entry. -/
theorem shift_tokens_right_spec_witness :
    (∀ row ∈ ([[5, 6, -100]] : List (List Int)), row ≠ [])
    ∧ (shift_tokens_right [[5, 6, -100]] none 2
        = Except.error "self.model.config.pad_token_id has to be defined."
      ∧ ∀ (pad : Int), ∃ out,
          shift_tokens_right [[5, 6, -100]] (some pad) 2 = Except.ok out
          ∧ out.length = ([[5, 6, -100]] : List (List Int)).length
          ∧ ∀ (r : Nat) (row orow : List Int),
              ([[5, 6, -100]] : List (List Int))[r]? = some row →
              out[r]? = some orow →
              orow.length = row.length
              ∧ orow[0]? = some (if (2 : Int) = -100 then pad else 2)
              ∧ ∀ (j : Nat), j + 1 < row.length →
                  orow[j + 1]? = row[j]?.map (fun x => if x = -100 then pad else x)) :=
  ⟨by decide, shift_tokens_right_spec [[5, 6, -100]] 2 (by decide)⟩
